import Mathlib

/-!
Shallow embedding of the FileManager selection/batch-manipulation engine
(`src/FileManager.ts`) and proofs of its specified properties.

The three collaborator interfaces (`IFileSystemExplorer`,
`IFileSystemManipulator`, `IRandomProvider`) are modelled as bundles of pure
functions; a fallible TypeScript method (one that may `throw`) becomes a
function into `Except String`, the thrown error message being the payload.
The stateful random provider is determinized by a draw index: the n-th call
of `nextInt` inside one destination resolution is `nextInt n max`.
Each engine operation returns its result, the post-state, and the trace of
collaborator calls it performed, so that "no Manipulator call happens" or
"exactly two existence checks" become statements about the trace.
-/

/-- `path.join` of Node, restricted to the shapes used by the engine:
a directory path with no trailing separator joined with a plain entry name. -/
def pathJoin (a b : String) : String := a ++ "/" ++ b

/-- The fixed adjective word list of `FileManager.ts`. -/
def ADJECTIVES : List String := [
  "grand", "petit", "rouge", "bleu", "vert",
  "rapide", "lent", "brillant", "sombre", "clair",
  "ancien", "nouveau", "fort", "doux", "vif",
  "calme", "noble", "simple", "rare", "libre"]

/-- The fixed noun word list of `FileManager.ts`. -/
def NOUNS : List String := [
  "soleil", "lune", "etoile", "montagne", "riviere",
  "foret", "ocean", "desert", "jardin", "chateau",
  "dragon", "phoenix", "tigre", "aigle", "dauphin",
  "cristal", "diamant", "saphir", "rubis", "emeraude"]

/-- Filesystem exploration collaborator (`IFileSystemExplorer`).
`listEntries` may throw, hence `Except`; `exists` is a pure snapshot of
which paths exist. -/
structure IFileSystemExplorer where
  listEntries : String → Except String (List String)
  «exists» : String → Bool
  isDirectory : String → Bool

/-- Filesystem manipulation collaborator (`IFileSystemManipulator`);
every method may throw. -/
structure IFileSystemManipulator where
  copy : String → String → Except String Unit
  move : String → String → Except String Unit
  delete : String → Except String Unit
  createDirectory : String → Except String Unit

/-- Random collaborator (`IRandomProvider`), determinized by the draw
index: `nextInt i max` is the answer to the i-th draw. -/
structure IRandomProvider where
  nextInt : Nat → Nat → Nat

/-- The three injected collaborators of a `FileManager` instance. -/
structure Env where
  explorer : IFileSystemExplorer
  manipulator : IFileSystemManipulator
  random : IRandomProvider

/-- `operationType` values of `FileOperationError`. -/
inductive OperationType where
  | copy
  | move
  | delete
deriving DecidableEq, Repr

/-- Per-entry error record (`FileOperationError`). -/
structure FileOperationError where
  fileName : String
  errorMessage : String
  operationType : OperationType
deriving DecidableEq, Repr

/-- Aggregate result of a batch operation (`OperationResult`);
`destinationPath` is `none` exactly when the field is absent (delete). -/
structure OperationResult where
  destinationPath : Option String
  errors : List FileOperationError
deriving DecidableEq, Repr

/-- Trace of collaborator calls made by one engine operation. -/
inductive FMEvent where
  | listEntriesCall (dir : String)
  | existsCall (p : String)
  | nextIntCall (max : Nat)
  | copyCall (src dst : String)
  | moveCall (src dst : String)
  | deleteCall (p : String)
  | createDirectoryCall (p : String)
deriving DecidableEq, Repr

/-- `true` on existence checks; used to count them in a trace. -/
def FMEvent.isExistsCall : FMEvent → Bool
  | .existsCall _ => true
  | _ => false

/-- The mutable state of a `FileManager` instance. A JS `Set<string>` is a
duplicate-free list in insertion order; `[...set]` is that list. -/
structure FileManager where
  currentDirectory : Option String
  entries : List String
  selectedEntries : List String
deriving DecidableEq, Repr

/-- `Set.add`: append if absent (JS sets keep insertion order). -/
def setAdd (s : List String) (x : String) : List String :=
  if s.contains x then s else s ++ [x]

/-- Succeeded iff no throw. -/
def isOkE (r : Except String Unit) : Bool :=
  match r with
  | .ok _ => true
  | .error _ => false

/-- Decidable equality for `Except`, so closed results can be checked by
`decide`. -/
instance instDecEqExcept {ε α : Type} [DecidableEq ε] [DecidableEq α] :
    DecidableEq (Except ε α)
  | .ok a, .ok b =>
      if h : a = b then .isTrue (congrArg Except.ok h)
      else .isFalse (fun hc => h (Except.ok.inj hc))
  | .error a, .error b =>
      if h : a = b then .isTrue (congrArg Except.error h)
      else .isFalse (fun hc => h (Except.error.inj hc))
  | .ok _, .error _ => .isFalse (fun hc => Except.noConfusion hc)
  | .error _, .ok _ => .isFalse (fun hc => Except.noConfusion hc)

namespace FileManager

/-- The freshly constructed engine. -/
def init : FileManager :=
  { currentDirectory := none, entries := [], selectedEntries := [] }

/-- `listEntries(directoryPath)`: note the source assigns
`currentDirectory` BEFORE the Explorer call, so an Explorer failure still
leaves `currentDirectory` set to the requested path. -/
def listEntries (env : Env) (fm : FileManager) (directoryPath : String) :
    Except String (List String) × FileManager × List FMEvent :=
  let fm1 := { fm with currentDirectory := some directoryPath }
  match env.explorer.listEntries directoryPath with
  | .error msg => (.error msg, fm1, [.listEntriesCall directoryPath])
  | .ok es =>
      (.ok es, { fm1 with entries := es, selectedEntries := [] },
       [.listEntriesCall directoryPath])

/-- `select(entryName)`: throws when the name is not a current entry. -/
def select (fm : FileManager) (entryName : String) :
    Except String Unit × FileManager :=
  if fm.entries.contains entryName then
    (.ok (), { fm with selectedEntries := setAdd fm.selectedEntries entryName })
  else
    (.error ("L\x27entrée \x27" ++ entryName ++
       "\x27 n\x27existe pas dans le répertoire courant."), fm)

/-- `deselect(entryName)`. -/
def deselect (fm : FileManager) (entryName : String) : FileManager :=
  { fm with selectedEntries := fm.selectedEntries.filter (fun e => e != entryName) }

/-- `selectAll()`. -/
def selectAll (fm : FileManager) : FileManager :=
  { fm with selectedEntries := fm.entries.foldl setAdd fm.selectedEntries }

/-- `deselectAll()`. -/
def deselectAll (fm : FileManager) : FileManager :=
  { fm with selectedEntries := [] }

/-- The TS non-null assertion `this.currentDirectory!`; the default is
never reached from states where the selection is non-empty. -/
def currentDirBang (fm : FileManager) : String :=
  fm.currentDirectory.getD "null"

/-- The candidate base name formed by the two draws starting at
`drawIdx` (source: one adjective index, then one noun index). Indexing a JS
array out of range yields `undefined`, hence the defaults. -/
def candidateName (env : Env) (drawIdx : Nat) : String :=
  let adj := ADJECTIVES.getD (env.random.nextInt drawIdx ADJECTIVES.length) "undefined"
  let noun := NOUNS.getD (env.random.nextInt (drawIdx + 1) NOUNS.length) "undefined"
  adj ++ "-" ++ noun

/-- The numbering do-while of `resolveDestination` (counter from `counter`
upwards, probing `"<name>-<counter>"`). The source loop is unbounded;
`fuel` bounds it here, `none` meaning the loop did not finish within
`fuel` probes. -/
def numberedProbe (ex : IFileSystemExplorer) (cd name : String)
    (counter fuel : Nat) : Option String × List FMEvent :=
  match fuel with
  | 0 => (none, [])
  | f + 1 =>
      let numberedName := name ++ "-" ++ toString counter
      let p := pathJoin cd numberedName
      if ex.«exists» p then
        let r := numberedProbe ex cd name (counter + 1) f
        (r.1, .existsCall p :: r.2)
      else
        (some p, [.existsCall p])

/-- The attempt loop of `resolveDestination`: up to `attemptsLeft` draws of
a fresh candidate, returning the first free path; when attempts run out the
last generated `name` goes to the numbering loop. -/
def randomAttempts (env : Env) (cd : String) (drawIdx : Nat) (name : String)
    (attemptsLeft numberFuel : Nat) : Option String × List FMEvent :=
  match attemptsLeft with
  | 0 => numberedProbe env.explorer cd name 1 numberFuel
  | a + 1 =>
      let candidate := candidateName env drawIdx
      let fullPath := pathJoin cd candidate
      if env.explorer.«exists» fullPath then
        let r := randomAttempts env cd (drawIdx + 2) candidate a numberFuel
        (r.1, .nextIntCall ADJECTIVES.length :: .nextIntCall NOUNS.length ::
          .existsCall fullPath :: r.2)
      else
        (some fullPath,
         [.nextIntCall ADJECTIVES.length, .nextIntCall NOUNS.length,
          .existsCall fullPath])

/-- `resolveDestination(destinationPath?)`. The source guard is the JS
truthiness test `if (destinationPath)`, so the empty string counts as
absent and falls through to generation. -/
def resolveDestination (env : Env) (cd : String)
    (destinationPath : Option String) (numberFuel : Nat) :
    Option String × List FMEvent :=
  match destinationPath with
  | some d =>
      if d.isEmpty then randomAttempts env cd 0 "" 10 numberFuel
      else (some d, [])
  | none => randomAttempts env cd 0 "" 10 numberFuel

/-- The per-entry loop of `copySelection` over the selection snapshot:
errors, succeeded entries, and trace, in iteration order. -/
def copyLoop (m : IFileSystemManipulator) (cd resolved : String) :
    List String → List FileOperationError × List String × List FMEvent
  | [] => ([], [], [])
  | entry :: rest =>
      let source := pathJoin cd entry
      let target := pathJoin resolved entry
      let r := copyLoop m cd resolved rest
      match m.copy source target with
      | .ok _ => (r.1, entry :: r.2.1, .copyCall source target :: r.2.2)
      | .error msg =>
          (⟨entry, msg, .copy⟩ :: r.1, r.2.1, .copyCall source target :: r.2.2)

/-- The per-entry loop of `moveSelection`: additionally threads `entries`,
filtering out each successfully moved entry immediately. Returns the final
entries, errors, succeeded entries, and trace. -/
def moveLoop (m : IFileSystemManipulator) (cd resolved : String) :
    List String → List String →
    List String × List FileOperationError × List String × List FMEvent
  | [], entries => (entries, [], [], [])
  | entry :: rest, entries =>
      let source := pathJoin cd entry
      let target := pathJoin resolved entry
      match m.move source target with
      | .ok _ =>
          let r := moveLoop m cd resolved rest (entries.filter (fun e => e != entry))
          (r.1, r.2.1, entry :: r.2.2.1, .moveCall source target :: r.2.2.2)
      | .error msg =>
          let r := moveLoop m cd resolved rest entries
          (r.1, ⟨entry, msg, .move⟩ :: r.2.1, r.2.2.1,
           .moveCall source target :: r.2.2.2)

/-- The per-entry loop of `deleteSelection`, threading `entries` like the
move loop. -/
def deleteLoop (m : IFileSystemManipulator) (cd : String) :
    List String → List String →
    List String × List FileOperationError × List String × List FMEvent
  | [], entries => (entries, [], [], [])
  | entry :: rest, entries =>
      let fullPath := pathJoin cd entry
      match m.delete fullPath with
      | .ok _ =>
          let r := deleteLoop m cd rest (entries.filter (fun e => e != entry))
          (r.1, r.2.1, entry :: r.2.2.1, .deleteCall fullPath :: r.2.2.2)
      | .error msg =>
          let r := deleteLoop m cd rest entries
          (r.1, ⟨entry, msg, .delete⟩ :: r.2.1, r.2.2.1,
           .deleteCall fullPath :: r.2.2.2)

/-- `copySelection(destinationPath?)`. `none` as overall result models the
(unreachable in practice) divergence of the numbering loop; otherwise the
thrown error or the returned `OperationResult`, the post-state and the
trace. -/
def copySelection (env : Env) (fm : FileManager)
    (destinationPath : Option String) (numberFuel : Nat) :
    Option (Except String OperationResult × FileManager × List FMEvent) :=
  if fm.selectedEntries.isEmpty then
    some (.error "Aucun fichier sélectionné.", fm, [])
  else
    match resolveDestination env (currentDirBang fm) destinationPath numberFuel with
    | (none, _) => none
    | (some resolved, resEvs) =>
        match env.manipulator.createDirectory resolved with
        | .error msg =>
            some (.error msg, fm, resEvs ++ [.createDirectoryCall resolved])
        | .ok _ =>
            some (.ok ⟨some resolved,
                (copyLoop env.manipulator (currentDirBang fm) resolved
                  fm.selectedEntries).1⟩,
              { fm with selectedEntries :=
                  fm.selectedEntries.filter (fun e =>
                    !((copyLoop env.manipulator (currentDirBang fm) resolved
                        fm.selectedEntries).2.1.contains e)) },
              resEvs ++ .createDirectoryCall resolved ::
                (copyLoop env.manipulator (currentDirBang fm) resolved
                  fm.selectedEntries).2.2)

/-- `moveSelection(destinationPath?)`. -/
def moveSelection (env : Env) (fm : FileManager)
    (destinationPath : Option String) (numberFuel : Nat) :
    Option (Except String OperationResult × FileManager × List FMEvent) :=
  if fm.selectedEntries.isEmpty then
    some (.error "Aucun fichier sélectionné.", fm, [])
  else
    match resolveDestination env (currentDirBang fm) destinationPath numberFuel with
    | (none, _) => none
    | (some resolved, resEvs) =>
        match env.manipulator.createDirectory resolved with
        | .error msg =>
            some (.error msg, fm, resEvs ++ [.createDirectoryCall resolved])
        | .ok _ =>
            some (.ok ⟨some resolved,
                (moveLoop env.manipulator (currentDirBang fm) resolved
                  fm.selectedEntries fm.entries).2.1⟩,
              { fm with
                entries := (moveLoop env.manipulator (currentDirBang fm) resolved
                  fm.selectedEntries fm.entries).1,
                selectedEntries :=
                  fm.selectedEntries.filter (fun e =>
                    !((moveLoop env.manipulator (currentDirBang fm) resolved
                        fm.selectedEntries fm.entries).2.2.1.contains e)) },
              resEvs ++ .createDirectoryCall resolved ::
                (moveLoop env.manipulator (currentDirBang fm) resolved
                  fm.selectedEntries fm.entries).2.2.2)

/-- `deleteSelection()`: no destination, no directory creation,
`destinationPath` absent from the result. -/
def deleteSelection (env : Env) (fm : FileManager) :
    Except String OperationResult × FileManager × List FMEvent :=
  if fm.selectedEntries.isEmpty then
    (.error "Aucun fichier sélectionné.", fm, [])
  else
    (.ok ⟨none,
        (deleteLoop env.manipulator (currentDirBang fm)
          fm.selectedEntries fm.entries).2.1⟩,
     { fm with
       entries := (deleteLoop env.manipulator (currentDirBang fm)
         fm.selectedEntries fm.entries).1,
       selectedEntries :=
         fm.selectedEntries.filter (fun e =>
           !((deleteLoop env.manipulator (currentDirBang fm)
               fm.selectedEntries fm.entries).2.2.1.contains e)) },
     (deleteLoop env.manipulator (currentDirBang fm)
       fm.selectedEntries fm.entries).2.2.2)

end FileManager

open FileManager

/-! ## Characterizations of the per-entry loops -/

/-- Whether the copy primitive succeeds for entry `e`. -/
def copyOk (m : IFileSystemManipulator) (cd resolved e : String) : Bool :=
  isOkE (m.copy (pathJoin cd e) (pathJoin resolved e))

/-- The error record the copy loop produces for entry `e`, if any. -/
def copyErrRec (m : IFileSystemManipulator) (cd resolved e : String) :
    Option FileOperationError :=
  match m.copy (pathJoin cd e) (pathJoin resolved e) with
  | .ok _ => none
  | .error msg => some ⟨e, msg, .copy⟩

/-- Whether the move primitive succeeds for entry `e`. -/
def moveOk (m : IFileSystemManipulator) (cd resolved e : String) : Bool :=
  isOkE (m.move (pathJoin cd e) (pathJoin resolved e))

/-- The error record the move loop produces for entry `e`, if any. -/
def moveErrRec (m : IFileSystemManipulator) (cd resolved e : String) :
    Option FileOperationError :=
  match m.move (pathJoin cd e) (pathJoin resolved e) with
  | .ok _ => none
  | .error msg => some ⟨e, msg, .move⟩

/-- Whether the delete primitive succeeds for entry `e`. -/
def deleteOk (m : IFileSystemManipulator) (cd e : String) : Bool :=
  isOkE (m.delete (pathJoin cd e))

/-- The error record the delete loop produces for entry `e`, if any. -/
def deleteErrRec (m : IFileSystemManipulator) (cd e : String) :
    Option FileOperationError :=
  match m.delete (pathJoin cd e) with
  | .ok _ => none
  | .error msg => some ⟨e, msg, .delete⟩

/-! ## Specification helpers: traces of the destination-resolution loops -/

/-- The collaborator-call trace of `k` colliding random attempts starting
at draw index `drawIdx`: two draws then one existence check per attempt. -/
def attemptTrace (env : Env) (cd : String) (drawIdx k : Nat) : List FMEvent :=
  match k with
  | 0 => []
  | a + 1 =>
      .nextIntCall ADJECTIVES.length :: .nextIntCall NOUNS.length ::
        .existsCall (pathJoin cd (candidateName env drawIdx)) ::
          attemptTrace env cd (drawIdx + 2) a

/-- The existence-check trace of `k` numbered probes
`"<base>-<c>", "<base>-<c+1>", …`. -/
def probeTrace (cd base : String) (c k : Nat) : List FMEvent :=
  match k with
  | 0 => []
  | j + 1 =>
      .existsCall (pathJoin cd (base ++ "-" ++ toString c)) ::
        probeTrace cd base (c + 1) j

/-! ## The engine invariant and the reachable states -/

/-- The engine invariant: the selection is a subset of the entries, and
before the first directory load (null `currentDirectory`) both are empty. -/
def EngineInv (fm : FileManager) : Prop :=
  (∀ x ∈ fm.selectedEntries, x ∈ fm.entries) ∧
  (fm.currentDirectory = none → fm.entries = [] ∧ fm.selectedEntries = [])

/-- States observable at the public interface: the initial state and every
post-state of a public operation, for arbitrary collaborator behaviour.
For the batch operations, `some` restricts to calls that return. -/
inductive Reachable : FileManager → Prop where
  | start : Reachable FileManager.init
  | stepListEntries (env : Env) (fm : FileManager) (dir : String)
      (fm' : FileManager) : Reachable fm →
      (FileManager.listEntries env fm dir).2.1 = fm' → Reachable fm'
  | stepSelect (fm : FileManager) (n : String) (fm' : FileManager) :
      Reachable fm → (FileManager.select fm n).2 = fm' → Reachable fm'
  | stepDeselect (fm : FileManager) (n : String) (fm' : FileManager) :
      Reachable fm → FileManager.deselect fm n = fm' → Reachable fm'
  | stepSelectAll (fm : FileManager) (fm' : FileManager) :
      Reachable fm → FileManager.selectAll fm = fm' → Reachable fm'
  | stepDeselectAll (fm : FileManager) (fm' : FileManager) :
      Reachable fm → FileManager.deselectAll fm = fm' → Reachable fm'
  | stepCopy (env : Env) (fm : FileManager) (d : Option String) (fuel : Nat)
      (r : Except String OperationResult) (fm' : FileManager)
      (evs : List FMEvent) : Reachable fm →
      FileManager.copySelection env fm d fuel = some (r, fm', evs) →
      Reachable fm'
  | stepMove (env : Env) (fm : FileManager) (d : Option String) (fuel : Nat)
      (r : Except String OperationResult) (fm' : FileManager)
      (evs : List FMEvent) : Reachable fm →
      FileManager.moveSelection env fm d fuel = some (r, fm', evs) →
      Reachable fm'
  | stepDelete (env : Env) (fm : FileManager)
      (r : Except String OperationResult) (fm' : FileManager)
      (evs : List FMEvent) : Reachable fm →
      FileManager.deleteSelection env fm = (r, fm', evs) → Reachable fm'

/-! ## Concrete collaborator instances for the closed statements -/

/-- A manipulator whose primitives all succeed. -/
def okManipulator : IFileSystemManipulator :=
  { copy := fun _ _ => .ok (), move := fun _ _ => .ok (),
    delete := fun _ => .ok (), createDirectory := fun _ => .ok () }

/-- An explorer for which no path exists. -/
def freeExplorer : IFileSystemExplorer :=
  { listEntries := fun _ => .ok [], «exists» := fun _ => false,
    isDirectory := fun _ => false }

/-- A random provider always answering 0. -/
def zeroRandom : IRandomProvider := { nextInt := fun _ _ => 0 }

/-- A fully benign environment. -/
def freeEnv : Env :=
  { explorer := freeExplorer, manipulator := okManipulator, random := zeroRandom }

/-- An environment whose explorer fails to list any directory. -/
def failListEnv : Env :=
  { explorer := { listEntries := fun _ => .error "ENOENT",
                  «exists» := fun _ => false, isDirectory := fun _ => false },
    manipulator := okManipulator, random := zeroRandom }

/-- An environment in which copying, moving or deleting a path mentioning
`fail` throws, everything else succeeds. -/
def mixedFailEnv : Env :=
  { explorer := freeExplorer,
    manipulator :=
      { copy := fun src _ =>
          if src = "/w/fail.txt" then .error "Permission refusée" else .ok (),
        move := fun src _ =>
          if src = "/w/fail.txt" then .error "Destination pleine" else .ok (),
        delete := fun p =>
          if p = "/w/fail.txt" then .error "Lecture seule" else .ok (),
        createDirectory := fun _ => .ok () },
    random := zeroRandom }

/-- An environment drawing indices 2 then 5, with no existing path. -/
def draws25Env : Env :=
  { explorer := freeExplorer, manipulator := okManipulator,
    random := { nextInt := fun i _ => if i = 0 then 2 else if i = 1 then 5 else 0 } }

/-- An environment whose first candidate (`grand-soleil`) exists and whose
second draw pair yields indices 1, 1 (`petit-lune`), which is free. -/
def retryEnv : Env :=
  { explorer := { listEntries := fun _ => .ok [],
                  «exists» := fun p => p = "/w/grand-soleil",
                  isDirectory := fun _ => false },
    manipulator := okManipulator,
    random := { nextInt := fun i _ => if i ≤ 1 then 0 else 1 } }

/-- An environment always drawing index 3, in which the base candidate
(`bleu-montagne`) exists but its first numbered variant is free. -/
def collideEnv : Env :=
  { explorer := { listEntries := fun _ => .ok [],
                  «exists» := fun p => p = "/w/bleu-montagne",
                  isDirectory := fun _ => false },
    manipulator := okManipulator,
    random := { nextInt := fun _ _ => 3 } }

/-- An environment listing `["a.txt"]` for every directory. -/
def demoEnv : Env :=
  { explorer := { listEntries := fun _ => .ok ["a.txt"],
                  «exists» := fun _ => false, isDirectory := fun _ => false },
    manipulator := okManipulator, random := zeroRandom }

/-- A reachable state with a non-empty selection: load `/w`, select
`a.txt`. -/
def demoFM : FileManager :=
  (FileManager.select (FileManager.listEntries demoEnv FileManager.init "/w").2.1
    "a.txt").2

theorem copyLoop_spec (m : IFileSystemManipulator) (cd resolved : String)
    (l : List String) :
    copyLoop m cd resolved l =
      (l.filterMap (copyErrRec m cd resolved),
       l.filter (copyOk m cd resolved),
       l.map (fun e => FMEvent.copyCall (pathJoin cd e) (pathJoin resolved e))) := by
  induction l with
  | nil => simp [copyLoop]
  | cons e rest ih =>
      cases h : m.copy (pathJoin cd e) (pathJoin resolved e) with
      | ok u => simp [copyLoop, h, ih, copyOk, copyErrRec, isOkE]
      | error msg => simp [copyLoop, h, ih, copyOk, copyErrRec, isOkE]

theorem moveLoop_spec (m : IFileSystemManipulator) (cd resolved : String)
    (l : List String) : ∀ entries : List String,
    moveLoop m cd resolved l entries =
      (entries.filter
        (fun x => !((l.filter (moveOk m cd resolved)).contains x)),
       l.filterMap (moveErrRec m cd resolved),
       l.filter (moveOk m cd resolved),
       l.map (fun e => FMEvent.moveCall (pathJoin cd e) (pathJoin resolved e))) := by
  induction l with
  | nil => intro entries; simp [moveLoop]
  | cons e rest ih =>
      intro entries
      cases h : m.move (pathJoin cd e) (pathJoin resolved e) with
      | ok u =>
          have hOk : moveOk m cd resolved e = true := by simp [moveOk, isOkE, h]
          have hpred : ∀ x : String,
              ((!((rest.filter (moveOk m cd resolved)).contains x)) && (x != e)) =
                (!((e :: rest.filter (moveOk m cd resolved)).contains x)) := by
            intro x
            by_cases hx : x = e <;> simp [hx, List.contains_cons]
          simp only [moveLoop, h, ih, List.filter_filter]
          simp [moveErrRec, h, List.filter_cons, hOk, hpred]
          refine List.filter_congr ?_
          intro x _
          by_cases hx : x = e <;> simp [hx, Bool.and_comm]
      | error msg =>
          have hOk : moveOk m cd resolved e = false := by simp [moveOk, isOkE, h]
          simp only [moveLoop, h, ih]
          simp [moveErrRec, h, List.filter_cons, hOk]

theorem deleteLoop_spec (m : IFileSystemManipulator) (cd : String)
    (l : List String) : ∀ entries : List String,
    deleteLoop m cd l entries =
      (entries.filter (fun x => !((l.filter (deleteOk m cd)).contains x)),
       l.filterMap (deleteErrRec m cd),
       l.filter (deleteOk m cd),
       l.map (fun e => FMEvent.deleteCall (pathJoin cd e))) := by
  induction l with
  | nil => intro entries; simp [deleteLoop]
  | cons e rest ih =>
      intro entries
      cases h : m.delete (pathJoin cd e) with
      | ok u =>
          have hOk : deleteOk m cd e = true := by simp [deleteOk, isOkE, h]
          have hpred : ∀ x : String,
              ((!((rest.filter (deleteOk m cd)).contains x)) && (x != e)) =
                (!((e :: rest.filter (deleteOk m cd)).contains x)) := by
            intro x
            by_cases hx : x = e <;> simp [hx, List.contains_cons]
          simp only [deleteLoop, h, ih, List.filter_filter]
          simp [deleteErrRec, h, List.filter_cons, hOk, hpred]
          refine List.filter_congr ?_
          intro x _
          by_cases hx : x = e <;> simp [hx, Bool.and_comm]
      | error msg =>
          have hOk : deleteOk m cd e = false := by simp [deleteOk, isOkE, h]
          simp only [deleteLoop, h, ih]
          simp [deleteErrRec, h, List.filter_cons, hOk]

/-- Deselecting the successful subset of `l` is filtering `l` by failure. -/
theorem filter_not_contains_filter (l : List String) (P : String → Bool) :
    l.filter (fun x => !((l.filter P).contains x)) = l.filter (fun x => !(P x)) := by
  refine List.filter_congr ?_
  intro x hx
  simp [hx]

theorem copySelection_error_state (env : Env) (fm : FileManager)
    (d : Option String) (fuel : Nat) (msg : String) (fm' : FileManager)
    (evs : List FMEvent)
    (h : copySelection env fm d fuel = some (.error msg, fm', evs)) :
    fm' = fm := by
  unfold copySelection at h
  split at h
  · simp only [Option.some.injEq, Prod.mk.injEq] at h
    exact h.2.1.symm
  · split at h
    · exact Option.noConfusion h
    · split at h
      · simp only [Option.some.injEq, Prod.mk.injEq] at h
        exact h.2.1.symm
      · simp at h

theorem copySelection_ok_inv (env : Env) (fm : FileManager) (d : Option String)
    (fuel : Nat) (res : OperationResult) (fm' : FileManager) (evs : List FMEvent)
    (h : copySelection env fm d fuel = some (.ok res, fm', evs)) :
    fm.selectedEntries ≠ [] ∧
    ∃ resolved resEvs,
      resolveDestination env (currentDirBang fm) d fuel = (some resolved, resEvs) ∧
      env.manipulator.createDirectory resolved = .ok () ∧
      res.destinationPath = some resolved ∧
      res.errors = fm.selectedEntries.filterMap
        (copyErrRec env.manipulator (currentDirBang fm) resolved) ∧
      fm'.currentDirectory = fm.currentDirectory ∧
      fm'.entries = fm.entries ∧
      fm'.selectedEntries = fm.selectedEntries.filter
        (fun x => !(copyOk env.manipulator (currentDirBang fm) resolved x)) := by
  unfold copySelection at h
  split at h
  · simp at h
  · rename_i hne
    split at h
    · exact Option.noConfusion h
    · rename_i resolved resEvs hres
      split at h
      · simp at h
      · rename_i u hcd
        cases u
        rw [copyLoop_spec] at h
        simp only [Option.some.injEq, Prod.mk.injEq, Except.ok.injEq] at h
        obtain ⟨hr, hfm, hevs⟩ := h
        refine ⟨by simpa using hne, resolved, resEvs, hres, hcd, ?_, ?_, ?_, ?_, ?_⟩
        · rw [← hr]
        · rw [← hr]
        · rw [← hfm]
        · rw [← hfm]
        · rw [← hfm]
          simpa using filter_not_contains_filter fm.selectedEntries
            (copyOk env.manipulator (currentDirBang fm) resolved)

theorem moveSelection_error_state (env : Env) (fm : FileManager)
    (d : Option String) (fuel : Nat) (msg : String) (fm' : FileManager)
    (evs : List FMEvent)
    (h : moveSelection env fm d fuel = some (.error msg, fm', evs)) :
    fm' = fm := by
  unfold moveSelection at h
  split at h
  · simp only [Option.some.injEq, Prod.mk.injEq] at h
    exact h.2.1.symm
  · split at h
    · exact Option.noConfusion h
    · split at h
      · simp only [Option.some.injEq, Prod.mk.injEq] at h
        exact h.2.1.symm
      · simp at h

theorem moveSelection_ok_inv (env : Env) (fm : FileManager) (d : Option String)
    (fuel : Nat) (res : OperationResult) (fm' : FileManager) (evs : List FMEvent)
    (h : moveSelection env fm d fuel = some (.ok res, fm', evs)) :
    fm.selectedEntries ≠ [] ∧
    ∃ resolved resEvs,
      resolveDestination env (currentDirBang fm) d fuel = (some resolved, resEvs) ∧
      env.manipulator.createDirectory resolved = .ok () ∧
      res.destinationPath = some resolved ∧
      res.errors = fm.selectedEntries.filterMap
        (moveErrRec env.manipulator (currentDirBang fm) resolved) ∧
      fm'.currentDirectory = fm.currentDirectory ∧
      fm'.entries = fm.entries.filter (fun x =>
        !((fm.selectedEntries.filter
            (moveOk env.manipulator (currentDirBang fm) resolved)).contains x)) ∧
      fm'.selectedEntries = fm.selectedEntries.filter
        (fun x => !(moveOk env.manipulator (currentDirBang fm) resolved x)) := by
  unfold moveSelection at h
  split at h
  · simp at h
  · rename_i hne
    split at h
    · exact Option.noConfusion h
    · rename_i resolved resEvs hres
      split at h
      · simp at h
      · rename_i u hcd
        cases u
        rw [moveLoop_spec] at h
        simp only [Option.some.injEq, Prod.mk.injEq, Except.ok.injEq] at h
        obtain ⟨hr, hfm, hevs⟩ := h
        refine ⟨by simpa using hne, resolved, resEvs, hres, hcd, ?_, ?_, ?_, ?_, ?_⟩
        · rw [← hr]
        · rw [← hr]
        · rw [← hfm]
        · rw [← hfm]
        · rw [← hfm]
          simpa using filter_not_contains_filter fm.selectedEntries
            (moveOk env.manipulator (currentDirBang fm) resolved)

theorem deleteSelection_error_state (env : Env) (fm : FileManager)
    (msg : String) (fm' : FileManager) (evs : List FMEvent)
    (h : deleteSelection env fm = (.error msg, fm', evs)) :
    fm' = fm := by
  unfold deleteSelection at h
  split at h
  · simp only [Prod.mk.injEq] at h
    exact h.2.1.symm
  · simp at h

theorem deleteSelection_ok_inv (env : Env) (fm : FileManager)
    (res : OperationResult) (fm' : FileManager) (evs : List FMEvent)
    (h : deleteSelection env fm = (.ok res, fm', evs)) :
    fm.selectedEntries ≠ [] ∧
    res.destinationPath = none ∧
    res.errors = fm.selectedEntries.filterMap
      (deleteErrRec env.manipulator (currentDirBang fm)) ∧
    fm'.currentDirectory = fm.currentDirectory ∧
    fm'.entries = fm.entries.filter (fun x =>
      !((fm.selectedEntries.filter
          (deleteOk env.manipulator (currentDirBang fm))).contains x)) ∧
    fm'.selectedEntries = fm.selectedEntries.filter
      (fun x => !(deleteOk env.manipulator (currentDirBang fm) x)) := by
  unfold deleteSelection at h
  split at h
  · simp at h
  · rename_i hne
    rw [deleteLoop_spec] at h
    simp only [Prod.mk.injEq, Except.ok.injEq] at h
    obtain ⟨hr, hfm, hevs⟩ := h
    refine ⟨by simpa using hne, ?_, ?_, ?_, ?_, ?_⟩
    · rw [← hr]
    · rw [← hr]
    · rw [← hfm]
    · rw [← hfm]
    · rw [← hfm]
      simpa using filter_not_contains_filter fm.selectedEntries
        (deleteOk env.manipulator (currentDirBang fm))

/-! ## Claim theorems -/

/-- C3: each of copySelection, moveSelection and deleteSelection, called
with an empty selection set, throws the "nothing selected" error
("Aucun fichier sélectionné.") with an empty collaborator trace — so before
any Manipulator call (createDirectory included) and before any Random
draw — and returns the state unchanged (currentDirectory, entries and
selection untouched). -/
theorem C3_empty_selection_fails_early (env : Env) (fm : FileManager)
    (d : Option String) (fuel : Nat) (h : fm.selectedEntries = []) :
    copySelection env fm d fuel =
      some (.error "Aucun fichier sélectionné.", fm, []) ∧
    moveSelection env fm d fuel =
      some (.error "Aucun fichier sélectionné.", fm, []) ∧
    deleteSelection env fm = (.error "Aucun fichier sélectionné.", fm, []) := by
  unfold copySelection moveSelection deleteSelection
  simp [h]

/-- C3 witness: the theorem applied to a concrete state with entries but no
selection. -/
theorem C3_witness :
    copySelection freeEnv ⟨some "/w", ["a.txt"], []⟩ none 1 =
      some (.error "Aucun fichier sélectionné.",
        (⟨some "/w", ["a.txt"], []⟩ : FileManager), []) ∧
    moveSelection freeEnv ⟨some "/w", ["a.txt"], []⟩ none 1 =
      some (.error "Aucun fichier sélectionné.",
        (⟨some "/w", ["a.txt"], []⟩ : FileManager), []) ∧
    deleteSelection freeEnv ⟨some "/w", ["a.txt"], []⟩ =
      (.error "Aucun fichier sélectionné.",
        (⟨some "/w", ["a.txt"], []⟩ : FileManager), []) :=
  C3_empty_selection_fails_early freeEnv ⟨some "/w", ["a.txt"], []⟩ none 1 rfl

/-- C9: when the Explorer succeeds, `listEntries` replaces the entries list
wholesale with the Explorer result, unconditionally empties the selection
(whatever it was, even when reloading the same path), sets
`currentDirectory` to the given path, and returns the new entries list. -/
theorem C9_load_success_resets (env : Env) (fm : FileManager) (dir : String)
    (es : List String) (h : env.explorer.listEntries dir = .ok es) :
    listEntries env fm dir =
      (.ok es,
       { currentDirectory := some dir, entries := es, selectedEntries := [] },
       [.listEntriesCall dir]) := by
  unfold listEntries
  simp [h]

/-- C9 witness: reloading the same path with a non-empty prior selection
still clears the selection. -/
theorem C9_witness :
    listEntries demoEnv ⟨some "/w", ["a.txt"], ["a.txt"]⟩ "/w" =
      (.ok ["a.txt"],
       { currentDirectory := some "/w", entries := ["a.txt"],
         selectedEntries := [] },
       [.listEntriesCall "/w"]) :=
  C9_load_success_resets demoEnv ⟨some "/w", ["a.txt"], ["a.txt"]⟩ "/w"
    ["a.txt"] rfl

/-- C7 counterexample: with an Explorer that fails, `listEntries` on a new
path does NOT leave the engine state unchanged: `currentDirectory` has
already been reassigned to the requested path when the error propagates. -/
theorem C7_counterexample :
    (listEntries failListEnv ⟨some "/a", ["x.txt"], []⟩ "/b").1 =
      .error "ENOENT" ∧
    (listEntries failListEnv ⟨some "/a", ["x.txt"], []⟩ "/b").2.1.currentDirectory
      ≠ some "/a" := by
  constructor
  · rfl
  · decide

/-- C7 (amended): when the Explorer's `listEntries` fails, the error is
propagated to the caller as-is and the entries list and the selection set
are left unchanged; `currentDirectory`, however, has already been set to
the requested path by the assignment preceding the Explorer call, so it is
not restored on failure. -/
theorem C7_load_failure_propagates (env : Env) (fm : FileManager)
    (dir msg : String) (h : env.explorer.listEntries dir = .error msg) :
    listEntries env fm dir =
      (.error msg,
       { currentDirectory := some dir, entries := fm.entries,
         selectedEntries := fm.selectedEntries },
       [.listEntriesCall dir]) := by
  unfold listEntries
  simp [h]

/-- C7 witness: the amended theorem at a concrete failing load. -/
theorem C7_witness :
    listEntries failListEnv ⟨some "/a", ["x.txt"], ["x.txt"]⟩ "/b" =
      (.error "ENOENT",
       { currentDirectory := some "/b", entries := ["x.txt"],
         selectedEntries := ["x.txt"] },
       [.listEntriesCall "/b"]) :=
  C7_load_failure_propagates failListEnv ⟨some "/a", ["x.txt"], ["x.txt"]⟩
    "/b" "ENOENT" rfl

/-- C8 counterexample: for the supplied destination string `""` the claim
fails — resolution does not return the string unchanged, and draws and an
existence check do occur (JS truthiness treats `""` as no destination). -/
theorem C8_counterexample :
    (resolveDestination freeEnv "/d" (some "") 1).1 ≠ some "" ∧
    (resolveDestination freeEnv "/d" (some "") 1).1 = some "/d/grand-soleil" ∧
    (resolveDestination freeEnv "/d" (some "") 1).2 ≠ ([] : List FMEvent) := by
  refine ⟨by decide, by decide, by decide⟩

/-- C8 (amended): for every NON-EMPTY destination string supplied by the
caller, destination resolution returns that string unchanged with an empty
trace — no existence check, no Random draw — and copySelection and
moveSelection report exactly that string as the result's
`destinationPath`. -/
theorem C8_explicit_destination_unchanged (env : Env) (fm : FileManager)
    (d : String) (cd : String) (fuel : Nat) (hne : d ≠ "") :
    resolveDestination env cd (some d) fuel = (some d, []) ∧
    (fm.selectedEntries ≠ [] → env.manipulator.createDirectory d = .ok () →
      ∃ res fm' evs,
        copySelection env fm (some d) fuel = some (.ok res, fm', evs) ∧
        res.destinationPath = some d) ∧
    (fm.selectedEntries ≠ [] → env.manipulator.createDirectory d = .ok () →
      ∃ res fm' evs,
        moveSelection env fm (some d) fuel = some (.ok res, fm', evs) ∧
        res.destinationPath = some d) := by
  have hie : d.isEmpty = false := by
    rw [Bool.eq_false_iff]
    intro hc
    exact hne ((String.isEmpty_iff d).mp hc)
  have hres : ∀ c : String, resolveDestination env c (some d) fuel = (some d, []) := by
    intro c
    unfold resolveDestination
    simp [hie]
  refine ⟨hres cd, ?_, ?_⟩
  · intro hsel hcd
    unfold copySelection
    rw [hres (currentDirBang fm)]
    simp only [List.isEmpty_iff, hsel, if_false, hcd]
    exact ⟨_, _, _, rfl, rfl⟩
  · intro hsel hcd
    unfold moveSelection
    rw [hres (currentDirBang fm)]
    simp only [List.isEmpty_iff, hsel, if_false, hcd]
    exact ⟨_, _, _, rfl, rfl⟩

/-- C8 witness: the amended theorem at a concrete non-empty destination. -/
theorem C8_witness :
    resolveDestination freeEnv "/w" (some "/dest") 1 = (some "/dest", []) ∧
    (∃ res fm' evs,
      copySelection freeEnv ⟨some "/w", ["a.txt"], ["a.txt"]⟩ (some "/dest") 1 =
        some (.ok res, fm', evs) ∧ res.destinationPath = some "/dest") ∧
    (∃ res fm' evs,
      moveSelection freeEnv ⟨some "/w", ["a.txt"], ["a.txt"]⟩ (some "/dest") 1 =
        some (.ok res, fm', evs) ∧ res.destinationPath = some "/dest") :=
  ⟨(C8_explicit_destination_unchanged freeEnv ⟨some "/w", ["a.txt"], ["a.txt"]⟩
      "/dest" "/w" 1 (by decide)).1,
   (C8_explicit_destination_unchanged freeEnv ⟨some "/w", ["a.txt"], ["a.txt"]⟩
      "/dest" "/w" 1 (by decide)).2.1 (by decide) rfl,
   (C8_explicit_destination_unchanged freeEnv ⟨some "/w", ["a.txt"], ["a.txt"]⟩
      "/dest" "/w" 1 (by decide)).2.2 (by decide) rfl⟩

/-- C6: copySelection never modifies the entries list (nor the current
directory) however the per-entry primitives behave; on a thrown
precondition or createDirectory error the state is fully unchanged; and on
a normal return the selection set is exactly the prior selection minus the
entries whose copy primitive succeeded. -/
theorem C6_copy_frame (env : Env) (fm : FileManager) (d : Option String)
    (fuel : Nat) :
    (∀ r fm' evs, copySelection env fm d fuel = some (r, fm', evs) →
      fm'.entries = fm.entries ∧ fm'.currentDirectory = fm.currentDirectory) ∧
    (∀ msg fm' evs, copySelection env fm d fuel = some (.error msg, fm', evs) →
      fm' = fm) ∧
    (∀ res fm' evs resolved,
      copySelection env fm d fuel = some (.ok res, fm', evs) →
      res.destinationPath = some resolved →
      fm'.selectedEntries = fm.selectedEntries.filter
        (fun e => !(copyOk env.manipulator (currentDirBang fm) resolved e))) := by
  refine ⟨?_, ?_, ?_⟩
  · intro r fm' evs h
    cases r with
    | error msg =>
        rw [copySelection_error_state env fm d fuel msg fm' evs h]
        exact ⟨rfl, rfl⟩
    | ok res =>
        obtain ⟨-, resolved, resEvs, -, -, -, -, hcd, hent, -⟩ :=
          copySelection_ok_inv env fm d fuel res fm' evs h
        exact ⟨hent, hcd⟩
  · intro msg fm' evs h
    exact copySelection_error_state env fm d fuel msg fm' evs h
  · intro res fm' evs resolved h hdp
    obtain ⟨-, resolved', resEvs, -, -, hdest, -, -, -, hsel⟩ :=
      copySelection_ok_inv env fm d fuel res fm' evs h
    rw [hdest] at hdp
    rw [Option.some.inj hdp] at hsel
    exact hsel

/-- C6 witness: with one failing and one succeeding copy, the entries list
is untouched and the selection keeps exactly the failed entry. -/
theorem C6_witness :
    ((⟨some "/w", ["ok.txt", "fail.txt"], ["fail.txt"]⟩ : FileManager).entries =
      (⟨some "/w", ["ok.txt", "fail.txt"],
        ["ok.txt", "fail.txt"]⟩ : FileManager).entries ∧
     (⟨some "/w", ["ok.txt", "fail.txt"], ["fail.txt"]⟩ : FileManager).currentDirectory =
      (⟨some "/w", ["ok.txt", "fail.txt"],
        ["ok.txt", "fail.txt"]⟩ : FileManager).currentDirectory) ∧
    (⟨some "/w", ["ok.txt", "fail.txt"], ["fail.txt"]⟩ : FileManager).selectedEntries =
      (["ok.txt", "fail.txt"] : List String).filter
        (fun e => !(copyOk mixedFailEnv.manipulator "/w" "/dest" e)) :=
  ⟨(C6_copy_frame mixedFailEnv
      ⟨some "/w", ["ok.txt", "fail.txt"], ["ok.txt", "fail.txt"]⟩
      (some "/dest") 1).1
      (.ok ⟨some "/dest", [⟨"fail.txt", "Permission refusée", .copy⟩]⟩)
      ⟨some "/w", ["ok.txt", "fail.txt"], ["fail.txt"]⟩
      [.createDirectoryCall "/dest", .copyCall "/w/ok.txt" "/dest/ok.txt",
       .copyCall "/w/fail.txt" "/dest/fail.txt"]
      (by decide),
   (C6_copy_frame mixedFailEnv
      ⟨some "/w", ["ok.txt", "fail.txt"], ["ok.txt", "fail.txt"]⟩
      (some "/dest") 1).2.2
      ⟨some "/dest", [⟨"fail.txt", "Permission refusée", .copy⟩]⟩
      ⟨some "/w", ["ok.txt", "fail.txt"], ["fail.txt"]⟩
      [.createDirectoryCall "/dest", .copyCall "/w/ok.txt" "/dest/ok.txt",
       .copyCall "/w/fail.txt" "/dest/fail.txt"]
      "/dest" (by decide) rfl⟩

/-- C1: per-entry outcome of moveSelection and deleteSelection on a normal
return: an entry whose Manipulator primitive succeeds is removed from both
the entries list and the selection set before the call returns; an entry
whose primitive throws stays in both, the batch having continued, and an
error record carrying that entry's name, the thrown message and the
operation kind (move or delete) is in the result's errors list. -/
theorem C1_move_delete_per_entry (env : Env) (fm : FileManager)
    (d : Option String) (fuel : Nat) :
    (∀ res fm' evs resolved,
      moveSelection env fm d fuel = some (.ok res, fm', evs) →
      res.destinationPath = some resolved →
      ∀ e ∈ fm.selectedEntries,
        (env.manipulator.move (pathJoin (currentDirBang fm) e)
            (pathJoin resolved e) = .ok () →
          e ∉ fm'.entries ∧ e ∉ fm'.selectedEntries) ∧
        (∀ msg, env.manipulator.move (pathJoin (currentDirBang fm) e)
            (pathJoin resolved e) = .error msg →
          (e ∈ fm'.entries ↔ e ∈ fm.entries) ∧ e ∈ fm'.selectedEntries ∧
          (⟨e, msg, .move⟩ : FileOperationError) ∈ res.errors)) ∧
    (∀ res fm' evs,
      deleteSelection env fm = (.ok res, fm', evs) →
      ∀ e ∈ fm.selectedEntries,
        (env.manipulator.delete (pathJoin (currentDirBang fm) e) = .ok () →
          e ∉ fm'.entries ∧ e ∉ fm'.selectedEntries) ∧
        (∀ msg, env.manipulator.delete (pathJoin (currentDirBang fm) e) =
            .error msg →
          (e ∈ fm'.entries ↔ e ∈ fm.entries) ∧ e ∈ fm'.selectedEntries ∧
          (⟨e, msg, .delete⟩ : FileOperationError) ∈ res.errors)) := by
  constructor
  · intro res fm' evs resolved h hdp e he
    obtain ⟨-, resolved', resEvs, -, -, hdest, herrs, -, hent, hsel⟩ :=
      moveSelection_ok_inv env fm d fuel res fm' evs h
    rw [hdest] at hdp
    rw [Option.some.inj hdp] at herrs hent hsel
    constructor
    · intro hmv
      have hok : moveOk env.manipulator (currentDirBang fm) resolved e = true := by
        simp [moveOk, isOkE, hmv]
      constructor
      · rw [hent]
        simp [List.mem_filter, hok, he]
      · rw [hsel]
        simp [List.mem_filter, hok]
    · intro msg hmv
      have hok : moveOk env.manipulator (currentDirBang fm) resolved e = false := by
        simp [moveOk, isOkE, hmv]
      refine ⟨?_, ?_, ?_⟩
      · rw [hent]
        simp [List.mem_filter, hok]
      · rw [hsel]
        simp [List.mem_filter, he, hok]
      · rw [herrs]
        rw [List.mem_filterMap]
        exact ⟨e, he, by simp [moveErrRec, hmv]⟩
  · intro res fm' evs h e he
    obtain ⟨-, -, herrs, -, hent, hsel⟩ :=
      deleteSelection_ok_inv env fm res fm' evs h
    constructor
    · intro hdl
      have hok : deleteOk env.manipulator (currentDirBang fm) e = true := by
        simp [deleteOk, isOkE, hdl]
      constructor
      · rw [hent]
        simp [List.mem_filter, hok, he]
      · rw [hsel]
        simp [List.mem_filter, hok]
    · intro msg hdl
      have hok : deleteOk env.manipulator (currentDirBang fm) e = false := by
        simp [deleteOk, isOkE, hdl]
      refine ⟨?_, ?_, ?_⟩
      · rw [hent]
        simp [List.mem_filter, hok]
      · rw [hsel]
        simp [List.mem_filter, he, hok]
      · rw [herrs]
        rw [List.mem_filterMap]
        exact ⟨e, he, by simp [deleteErrRec, hdl]⟩

/-- C1 witness: a move and a delete batch over `ok.txt` (succeeds) and
`fail.txt` (throws): the successful entry leaves both lists, the failed one
stays in both with its error record. -/
theorem C1_witness :
    ("ok.txt" ∉ (⟨some "/w", ["fail.txt"], ["fail.txt"]⟩ : FileManager).entries ∧
     "ok.txt" ∉
       (⟨some "/w", ["fail.txt"], ["fail.txt"]⟩ : FileManager).selectedEntries) ∧
    (("fail.txt" ∈ (⟨some "/w", ["fail.txt"], ["fail.txt"]⟩ : FileManager).entries ↔
      "fail.txt" ∈ (⟨some "/w", ["ok.txt", "fail.txt"],
        ["ok.txt", "fail.txt"]⟩ : FileManager).entries) ∧
     "fail.txt" ∈
       (⟨some "/w", ["fail.txt"], ["fail.txt"]⟩ : FileManager).selectedEntries ∧
     (⟨"fail.txt", "Destination pleine", .move⟩ : FileOperationError) ∈
       (⟨some "/dest",
         [⟨"fail.txt", "Destination pleine", .move⟩]⟩ : OperationResult).errors) ∧
    ("ok.txt" ∉ (⟨some "/w", ["fail.txt"], ["fail.txt"]⟩ : FileManager).entries ∧
     (⟨"fail.txt", "Lecture seule", .delete⟩ : FileOperationError) ∈
       (⟨none,
         [⟨"fail.txt", "Lecture seule", .delete⟩]⟩ : OperationResult).errors) :=
  ⟨((C1_move_delete_per_entry mixedFailEnv
      ⟨some "/w", ["ok.txt", "fail.txt"], ["ok.txt", "fail.txt"]⟩
      (some "/dest") 1).1
      ⟨some "/dest", [⟨"fail.txt", "Destination pleine", .move⟩]⟩
      ⟨some "/w", ["fail.txt"], ["fail.txt"]⟩
      [.createDirectoryCall "/dest", .moveCall "/w/ok.txt" "/dest/ok.txt",
       .moveCall "/w/fail.txt" "/dest/fail.txt"]
      "/dest" (by decide) rfl "ok.txt" (by decide)).1 (by decide),
   ((C1_move_delete_per_entry mixedFailEnv
      ⟨some "/w", ["ok.txt", "fail.txt"], ["ok.txt", "fail.txt"]⟩
      (some "/dest") 1).1
      ⟨some "/dest", [⟨"fail.txt", "Destination pleine", .move⟩]⟩
      ⟨some "/w", ["fail.txt"], ["fail.txt"]⟩
      [.createDirectoryCall "/dest", .moveCall "/w/ok.txt" "/dest/ok.txt",
       .moveCall "/w/fail.txt" "/dest/fail.txt"]
      "/dest" (by decide) rfl "fail.txt" (by decide)).2
      "Destination pleine" (by decide),
   ⟨(((C1_move_delete_per_entry mixedFailEnv
      ⟨some "/w", ["ok.txt", "fail.txt"], ["ok.txt", "fail.txt"]⟩
      (some "/dest") 1).2
      ⟨none, [⟨"fail.txt", "Lecture seule", .delete⟩]⟩
      ⟨some "/w", ["fail.txt"], ["fail.txt"]⟩
      [.deleteCall "/w/ok.txt", .deleteCall "/w/fail.txt"]
      (by decide) "ok.txt" (by decide)).1 (by decide)).1,
    (((C1_move_delete_per_entry mixedFailEnv
      ⟨some "/w", ["ok.txt", "fail.txt"], ["ok.txt", "fail.txt"]⟩
      (some "/dest") 1).2
      ⟨none, [⟨"fail.txt", "Lecture seule", .delete⟩]⟩
      ⟨some "/w", ["fail.txt"], ["fail.txt"]⟩
      [.deleteCall "/w/ok.txt", .deleteCall "/w/fail.txt"]
      (by decide) "fail.txt" (by decide)).2 "Lecture seule" (by decide)).2.2⟩⟩

/-! ## The invariant holds in every reachable state -/

theorem mem_setAdd (s : List String) (a x : String) :
    x ∈ setAdd s a ↔ x ∈ s ∨ x = a := by
  unfold setAdd
  split
  · rename_i hc
    have ha : a ∈ s := by simpa using hc
    constructor
    · exact Or.inl
    · rintro (hx | rfl)
      exacts [hx, ha]
  · simp

theorem mem_foldl_setAdd (l : List String) :
    ∀ (s : List String) (x : String), x ∈ l.foldl setAdd s → x ∈ s ∨ x ∈ l := by
  induction l with
  | nil => intro s x h; exact Or.inl h
  | cons a rest ih =>
      intro s x h
      rcases ih (setAdd s a) x h with hx | hx
      · rcases (mem_setAdd s a x).mp hx with hx' | hx'
        · exact Or.inl hx'
        · exact Or.inr (by rw [hx']; exact List.mem_cons_self a rest)
      · exact Or.inr (List.mem_cons_of_mem a hx)

theorem engineInv_init : EngineInv init := by
  constructor
  · intro x hx
    simp [init] at hx
  · intro _
    exact ⟨rfl, rfl⟩

theorem engineInv_listEntries (env : Env) (fm : FileManager) (dir : String)
    (h : EngineInv fm) : EngineInv (listEntries env fm dir).2.1 := by
  unfold listEntries
  cases hx : env.explorer.listEntries dir with
  | error msg =>
      refine ⟨fun x hxm => h.1 x hxm, fun hc => ?_⟩
      simp at hc
  | ok es =>
      refine ⟨fun x hxm => ?_, fun hc => ?_⟩
      · simp at hxm
      · simp at hc

theorem engineInv_select (fm : FileManager) (n : String)
    (h : EngineInv fm) : EngineInv (select fm n).2 := by
  unfold select
  split
  · rename_i hc
    have hn : n ∈ fm.entries := by simpa using hc
    refine ⟨fun x hx => ?_, fun hcd => ?_⟩
    · rcases (mem_setAdd fm.selectedEntries n x).mp hx with hx' | rfl
      · exact h.1 x hx'
      · exact hn
    · obtain ⟨he, hs⟩ := h.2 hcd
      rw [he] at hn
      exact absurd hn (List.not_mem_nil n)
  · exact h

theorem engineInv_deselect (fm : FileManager) (n : String)
    (h : EngineInv fm) : EngineInv (deselect fm n) := by
  unfold deselect
  refine ⟨fun x hx => ?_, fun hcd => ?_⟩
  · exact h.1 x (List.mem_of_mem_filter hx)
  · obtain ⟨he, hs⟩ := h.2 hcd
    exact ⟨he, by rw [hs]; rfl⟩

theorem engineInv_selectAll (fm : FileManager)
    (h : EngineInv fm) : EngineInv (selectAll fm) := by
  unfold selectAll
  refine ⟨fun x hx => ?_, fun hcd => ?_⟩
  · rcases mem_foldl_setAdd fm.entries fm.selectedEntries x hx with hx' | hx'
    · exact h.1 x hx'
    · exact hx'
  · obtain ⟨he, hs⟩ := h.2 hcd
    refine ⟨he, ?_⟩
    rw [he, hs]
    rfl

theorem engineInv_deselectAll (fm : FileManager)
    (h : EngineInv fm) : EngineInv (deselectAll fm) := by
  unfold deselectAll
  exact ⟨fun x hx => absurd hx (List.not_mem_nil x), fun hcd => ⟨(h.2 hcd).1, rfl⟩⟩

theorem engineInv_copySelection (env : Env) (fm : FileManager)
    (d : Option String) (fuel : Nat) (r : Except String OperationResult)
    (fm' : FileManager) (evs : List FMEvent)
    (hop : copySelection env fm d fuel = some (r, fm', evs))
    (h : EngineInv fm) : EngineInv fm' := by
  cases r with
  | error msg =>
      rw [copySelection_error_state env fm d fuel msg fm' evs hop]
      exact h
  | ok res =>
      obtain ⟨hne, resolved, resEvs, -, -, -, -, hcd, hent, hsel⟩ :=
        copySelection_ok_inv env fm d fuel res fm' evs hop
      refine ⟨fun x hx => ?_, fun hcdn => ?_⟩
      · rw [hent]
        rw [hsel] at hx
        exact h.1 x (List.mem_of_mem_filter hx)
      · rw [hcd] at hcdn
        exact absurd (h.2 hcdn).2 hne

theorem engineInv_moveSelection (env : Env) (fm : FileManager)
    (d : Option String) (fuel : Nat) (r : Except String OperationResult)
    (fm' : FileManager) (evs : List FMEvent)
    (hop : moveSelection env fm d fuel = some (r, fm', evs))
    (h : EngineInv fm) : EngineInv fm' := by
  cases r with
  | error msg =>
      rw [moveSelection_error_state env fm d fuel msg fm' evs hop]
      exact h
  | ok res =>
      obtain ⟨hne, resolved, resEvs, -, -, -, -, hcd, hent, hsel⟩ :=
        moveSelection_ok_inv env fm d fuel res fm' evs hop
      refine ⟨fun x hx => ?_, fun hcdn => ?_⟩
      · rw [hsel] at hx
        rw [hent]
        rw [List.mem_filter] at hx ⊢
        refine ⟨h.1 x hx.1, ?_⟩
        simp only [Bool.not_eq_true'] at hx ⊢
        simp [List.mem_filter, hx.2]
      · rw [hcd] at hcdn
        exact absurd (h.2 hcdn).2 hne

theorem engineInv_deleteSelection (env : Env) (fm : FileManager)
    (r : Except String OperationResult) (fm' : FileManager)
    (evs : List FMEvent)
    (hop : deleteSelection env fm = (r, fm', evs))
    (h : EngineInv fm) : EngineInv fm' := by
  cases r with
  | error msg =>
      rw [deleteSelection_error_state env fm msg fm' evs hop]
      exact h
  | ok res =>
      obtain ⟨hne, -, -, hcd, hent, hsel⟩ :=
        deleteSelection_ok_inv env fm res fm' evs hop
      refine ⟨fun x hx => ?_, fun hcdn => ?_⟩
      · rw [hsel] at hx
        rw [hent]
        rw [List.mem_filter] at hx ⊢
        refine ⟨h.1 x hx.1, ?_⟩
        simp only [Bool.not_eq_true'] at hx ⊢
        simp [List.mem_filter, hx.2]
      · rw [hcd] at hcdn
        exact absurd (h.2 hcdn).2 hne

/-- Every state reachable at the public interface satisfies the engine
invariant. -/
theorem reachable_engineInv (fm : FileManager) (h : Reachable fm) :
    EngineInv fm := by
  induction h with
  | start => exact engineInv_init
  | stepListEntries env fm dir fm' _ heq ih =>
      rw [← heq]; exact engineInv_listEntries env fm dir ih
  | stepSelect fm n fm' _ heq ih =>
      rw [← heq]; exact engineInv_select fm n ih
  | stepDeselect fm n fm' _ heq ih =>
      rw [← heq]; exact engineInv_deselect fm n ih
  | stepSelectAll fm fm' _ heq ih =>
      rw [← heq]; exact engineInv_selectAll fm ih
  | stepDeselectAll fm fm' _ heq ih =>
      rw [← heq]; exact engineInv_deselectAll fm ih
  | stepCopy env fm d fuel r fm' evs _ heq ih =>
      exact engineInv_copySelection env fm d fuel r fm' evs heq ih
  | stepMove env fm d fuel r fm' evs _ heq ih =>
      exact engineInv_moveSelection env fm d fuel r fm' evs heq ih
  | stepDelete env fm r fm' evs _ heq ih =>
      exact engineInv_deleteSelection env fm r fm' evs heq ih

/-- C2: in every state reachable through the public interface — any
sequence of loads, selection mutations and batch operations, any
collaborator behaviour — every name in the selection set is a member of
the entries list. -/
theorem C2_selection_subset_entries (fm : FileManager) (h : Reachable fm) :
    ∀ x ∈ fm.selectedEntries, x ∈ fm.entries :=
  (reachable_engineInv fm h).1

/-- C2 witness: the invariant at the reachable state obtained by loading
`/w` and selecting `a.txt`. -/
theorem C2_witness : "a.txt" ∈ demoFM.entries :=
  C2_selection_subset_entries demoFM
    (Reachable.stepSelect (listEntries demoEnv init "/w").2.1 "a.txt" demoFM
      (Reachable.stepListEntries demoEnv init "/w"
        (listEntries demoEnv init "/w").2.1 Reachable.start rfl)
      rfl)
    "a.txt" (by decide)

/-- C10: in every reachable state a non-empty selection implies a non-null
`currentDirectory`; hence the TS non-null assertions on `currentDirectory`
in copySelection, moveSelection, deleteSelection and resolveDestination,
all guarded by the non-empty-selection precondition, never observe null. -/
theorem C10_nonempty_selection_currentDirectory (fm : FileManager)
    (h : Reachable fm) (hne : fm.selectedEntries ≠ []) :
    fm.currentDirectory ≠ none := by
  intro hcd
  exact hne ((reachable_engineInv fm h).2 hcd).2

/-- C10 witness: the implication at a concrete reachable state with a
non-empty selection. -/
theorem C10_witness :
    demoFM.selectedEntries ≠ [] ∧ demoFM.currentDirectory ≠ none :=
  ⟨by decide,
   C10_nonempty_selection_currentDirectory demoFM
    (Reachable.stepSelect (listEntries demoEnv init "/w").2.1 "a.txt" demoFM
      (Reachable.stepListEntries demoEnv init "/w"
        (listEntries demoEnv init "/w").2.1 Reachable.start rfl)
      rfl)
    (by decide)⟩

/-! ## Destination resolution -/

theorem numberedProbe_congr (ex1 ex2 : IFileSystemExplorer)
    (hx : ex1.«exists» = ex2.«exists») (cd name : String) :
    ∀ (fuel counter : Nat),
    numberedProbe ex1 cd name counter fuel =
      numberedProbe ex2 cd name counter fuel := by
  intro fuel
  induction fuel with
  | zero => intro c; rfl
  | succ f ih =>
      intro c
      simp only [numberedProbe, hx, ih]

theorem randomAttempts_congr (env1 env2 : Env)
    (hx : env1.explorer.«exists» = env2.explorer.«exists»)
    (hr : env1.random.nextInt = env2.random.nextInt) (cd : String) :
    ∀ (k drawIdx : Nat) (name : String) (numberFuel : Nat),
    randomAttempts env1 cd drawIdx name k numberFuel =
      randomAttempts env2 cd drawIdx name k numberFuel := by
  have hcand : ∀ i, candidateName env1 i = candidateName env2 i := by
    intro i
    unfold candidateName
    rw [hr]
  intro k
  induction k with
  | zero =>
      intro d n f
      exact numberedProbe_congr env1.explorer env2.explorer hx cd n f 1
  | succ a ih =>
      intro d n f
      simp only [randomAttempts, hcand, hx, ih]

/-- One attempt whose candidate path is free returns it at once. -/
theorem randomAttempts_first_free (env : Env) (cd : String) (drawIdx : Nat)
    (name : String) (a numberFuel : Nat)
    (h : env.explorer.«exists» (pathJoin cd (candidateName env drawIdx)) = false) :
    randomAttempts env cd drawIdx name (a + 1) numberFuel =
      (some (pathJoin cd (candidateName env drawIdx)),
       [.nextIntCall ADJECTIVES.length, .nextIntCall NOUNS.length,
        .existsCall (pathJoin cd (candidateName env drawIdx))]) := by
  simp [randomAttempts, h]

/-- One attempt whose candidate path exists retries with the next draws. -/
theorem randomAttempts_collide_step (env : Env) (cd : String) (drawIdx : Nat)
    (name : String) (a numberFuel : Nat)
    (h : env.explorer.«exists» (pathJoin cd (candidateName env drawIdx)) = true) :
    randomAttempts env cd drawIdx name (a + 1) numberFuel =
      ((randomAttempts env cd (drawIdx + 2) (candidateName env drawIdx) a
          numberFuel).1,
       .nextIntCall ADJECTIVES.length :: .nextIntCall NOUNS.length ::
         .existsCall (pathJoin cd (candidateName env drawIdx)) ::
         (randomAttempts env cd (drawIdx + 2) (candidateName env drawIdx) a
           numberFuel).2) := by
  simp [randomAttempts, h]

/-- The numbering loop stops at the first free numbered path: with `j`
colliding probes then a free one, it returns `"<base>-<c+j>"` after probing
every numbered path from `c` to `c+j`. -/
theorem numberedProbe_free_spec (ex : IFileSystemExplorer) (cd base : String) :
    ∀ (j c fuel : Nat),
    (∀ i ∈ List.range j,
      ex.«exists» (pathJoin cd (base ++ "-" ++ toString (c + i))) = true) →
    ex.«exists» (pathJoin cd (base ++ "-" ++ toString (c + j))) = false →
    j < fuel →
    numberedProbe ex cd base c fuel =
      (some (pathJoin cd (base ++ "-" ++ toString (c + j))),
       probeTrace cd base c (j + 1)) := by
  intro j
  induction j with
  | zero =>
      intro c fuel hall hfree hf
      cases fuel with
      | zero => omega
      | succ f =>
          rw [Nat.add_zero] at hfree
          simp [numberedProbe, hfree, probeTrace]
  | succ j ih =>
      intro c fuel hall hfree hf
      cases fuel with
      | zero => omega
      | succ f =>
          have h0 : ex.«exists» (pathJoin cd (base ++ "-" ++ toString c)) = true := by
            have h0' := hall 0 (by simp)
            rwa [Nat.add_zero] at h0'
          have harith : c + 1 + j = c + (j + 1) := by omega
          have ihh := ih (c + 1) f ?_ ?_ (by omega)
          case succ.refine_1 =>
            intro i hi
            have hi' : i + 1 ∈ List.range (j + 1) := by
              simp only [List.mem_range] at hi ⊢
              omega
            have := hall (i + 1) hi'
            rwa [show c + (i + 1) = c + 1 + i from by omega] at this
          case succ.refine_2 =>
            rwa [harith]
          simp only [numberedProbe, h0, if_true]
          rw [ihh, harith]
          simp [probeTrace]

/-- When every one of `k` attempted candidates collides, the attempt loop
hands the numbering loop the base generated on the last attempt, and its
trace is the `k` attempts' draws and checks followed by the probes. -/
theorem randomAttempts_all_collide (env : Env) (cd : String) :
    ∀ (k drawIdx : Nat) (name : String) (numberFuel : Nat),
    (∀ a ∈ List.range k,
      env.explorer.«exists»
        (pathJoin cd (candidateName env (drawIdx + 2 * a))) = true) →
    randomAttempts env cd drawIdx name k numberFuel =
      ((numberedProbe env.explorer cd
          (if k = 0 then name else candidateName env (drawIdx + 2 * (k - 1)))
          1 numberFuel).1,
       attemptTrace env cd drawIdx k ++
         (numberedProbe env.explorer cd
           (if k = 0 then name else candidateName env (drawIdx + 2 * (k - 1)))
           1 numberFuel).2) := by
  intro k
  induction k with
  | zero =>
      intro d n f hall
      simp [randomAttempts, attemptTrace]
  | succ a ih =>
      intro d n f hall
      have h0 : env.explorer.«exists» (pathJoin cd (candidateName env d)) = true := by
        have h0' := hall 0 (by simp)
        rwa [Nat.mul_zero, Nat.add_zero] at h0'
      have hall' : ∀ b ∈ List.range a,
          env.explorer.«exists»
            (pathJoin cd (candidateName env (d + 2 + 2 * b))) = true := by
        intro b hb
        have hb' : b + 1 ∈ List.range (a + 1) := by
          simp only [List.mem_range] at hb ⊢
          omega
        have := hall (b + 1) hb'
        rwa [show d + 2 * (b + 1) = d + 2 + 2 * b from by omega] at this
      simp only [randomAttempts, h0, if_true]
      rw [ih (d + 2) (candidateName env d) f hall']
      cases a with
      | zero => simp [attemptTrace]
      | succ j =>
          have harith : d + 2 + 2 * (j + 1 - 1) = d + 2 * (j + 1 + 1 - 1) := by
            omega
          rw [harith]
          simp [attemptTrace]

/-- C4: destination resolution without an explicit destination is a
deterministic function of the `exists` and `nextInt` answers; with draws 2
then 5 and no existing path, the first attempt returns
`join(cd, ADJECTIVES[2] ++ "-" ++ NOUNS[5])` (and `copySelection()` with no
destination reports exactly that path); and when the first candidate
exists and the second does not, exactly two existence checks happen and the
second candidate's path is returned. -/
theorem C4_destination_resolution :
    (∀ (env1 env2 : Env) (cd : String) (dst : Option String) (fuel : Nat),
      env1.explorer.«exists» = env2.explorer.«exists» →
      env1.random.nextInt = env2.random.nextInt →
      resolveDestination env1 cd dst fuel = resolveDestination env2 cd dst fuel) ∧
    (∀ (env : Env) (cd : String) (fuel : Nat),
      env.random.nextInt 0 ADJECTIVES.length = 2 →
      env.random.nextInt 1 NOUNS.length = 5 →
      (∀ p, env.explorer.«exists» p = false) →
      resolveDestination env cd none fuel =
        (some (pathJoin cd
          (ADJECTIVES.getD 2 "undefined" ++ "-" ++ NOUNS.getD 5 "undefined")),
         [.nextIntCall ADJECTIVES.length, .nextIntCall NOUNS.length,
          .existsCall (pathJoin cd
            (ADJECTIVES.getD 2 "undefined" ++ "-" ++ NOUNS.getD 5 "undefined"))]) ∧
      (∀ fm : FileManager, fm.currentDirectory = some cd →
        fm.selectedEntries ≠ [] →
        env.manipulator.createDirectory (pathJoin cd
          (ADJECTIVES.getD 2 "undefined" ++ "-" ++ NOUNS.getD 5 "undefined")) =
            .ok () →
        ∃ res fm' evs, copySelection env fm none fuel = some (.ok res, fm', evs) ∧
          res.destinationPath = some (pathJoin cd
            (ADJECTIVES.getD 2 "undefined" ++ "-" ++ NOUNS.getD 5 "undefined")))) ∧
    (∀ (env : Env) (cd : String) (fuel : Nat),
      env.explorer.«exists» (pathJoin cd (candidateName env 0)) = true →
      env.explorer.«exists» (pathJoin cd (candidateName env 2)) = false →
      resolveDestination env cd none fuel =
        (some (pathJoin cd (candidateName env 2)),
         [.nextIntCall ADJECTIVES.length, .nextIntCall NOUNS.length,
          .existsCall (pathJoin cd (candidateName env 0)),
          .nextIntCall ADJECTIVES.length, .nextIntCall NOUNS.length,
          .existsCall (pathJoin cd (candidateName env 2))]) ∧
      (resolveDestination env cd none fuel).2.countP
        (fun ev => ev.isExistsCall) = 2) := by
  refine ⟨?_, ?_, ?_⟩
  · intro env1 env2 cd dst fuel hx hr
    unfold resolveDestination
    cases dst with
    | none => exact randomAttempts_congr env1 env2 hx hr cd 10 0 "" fuel
    | some d =>
        cases hd : d.isEmpty with
        | true =>
            simp only [hd, if_true]
            exact randomAttempts_congr env1 env2 hx hr cd 10 0 "" fuel
        | false => simp [hd]
  · intro env cd fuel h0 h1 hall
    have hc : candidateName env 0 =
        ADJECTIVES.getD 2 "undefined" ++ "-" ++ NOUNS.getD 5 "undefined" := by
      unfold candidateName
      rw [h0, h1]
    have hmain : resolveDestination env cd none fuel =
        (some (pathJoin cd
          (ADJECTIVES.getD 2 "undefined" ++ "-" ++ NOUNS.getD 5 "undefined")),
         [.nextIntCall ADJECTIVES.length, .nextIntCall NOUNS.length,
          .existsCall (pathJoin cd
            (ADJECTIVES.getD 2 "undefined" ++ "-" ++
              NOUNS.getD 5 "undefined"))]) := by
      show randomAttempts env cd 0 "" (9 + 1) fuel = _
      rw [randomAttempts_first_free env cd 0 "" 9 fuel (hall _), hc]
    refine ⟨hmain, ?_⟩
    intro fm hcd hsel hmk
    have hbang : currentDirBang fm = cd := by
      unfold currentDirBang
      rw [hcd]
      rfl
    unfold copySelection
    rw [hbang, hmain]
    simp only [List.isEmpty_iff, hsel, if_false, hmk]
    exact ⟨_, _, _, rfl, rfl⟩
  · intro env cd fuel h1 h2
    have hmain : resolveDestination env cd none fuel =
        (some (pathJoin cd (candidateName env 2)),
         [.nextIntCall ADJECTIVES.length, .nextIntCall NOUNS.length,
          .existsCall (pathJoin cd (candidateName env 0)),
          .nextIntCall ADJECTIVES.length, .nextIntCall NOUNS.length,
          .existsCall (pathJoin cd (candidateName env 2))]) := by
      have hstep : randomAttempts env cd 0 "" 10 fuel =
          ((randomAttempts env cd 2 (candidateName env 0) 9 fuel).1,
           .nextIntCall ADJECTIVES.length :: .nextIntCall NOUNS.length ::
             .existsCall (pathJoin cd (candidateName env 0)) ::
             (randomAttempts env cd 2 (candidateName env 0) 9 fuel).2) :=
        randomAttempts_collide_step env cd 0 "" 9 fuel h1
      have hfree : randomAttempts env cd 2 (candidateName env 0) 9 fuel =
          (some (pathJoin cd (candidateName env 2)),
           [.nextIntCall ADJECTIVES.length, .nextIntCall NOUNS.length,
            .existsCall (pathJoin cd (candidateName env 2))]) :=
        randomAttempts_first_free env cd 2 (candidateName env 0) 8 fuel h2
      show randomAttempts env cd 0 "" 10 fuel = _
      rw [hstep, hfree]
    refine ⟨hmain, ?_⟩
    rw [hmain]
    rfl

/-- C4 witness: determinism at two equal-behaviour environments, the
2-then-5 example (`rouge-foret`), and the collide-then-free example with
its two existence checks. -/
theorem C4_witness :
    resolveDestination freeEnv "/w" none 1 =
      resolveDestination freeEnv "/w" none 1 ∧
    resolveDestination draws25Env "/w" none 1 =
      (some (pathJoin "/w"
        (ADJECTIVES.getD 2 "undefined" ++ "-" ++ NOUNS.getD 5 "undefined")),
       [.nextIntCall ADJECTIVES.length, .nextIntCall NOUNS.length,
        .existsCall (pathJoin "/w"
          (ADJECTIVES.getD 2 "undefined" ++ "-" ++ NOUNS.getD 5 "undefined"))]) ∧
    (∃ res fm' evs,
      copySelection draws25Env ⟨some "/w", ["a.txt"], ["a.txt"]⟩ none 1 =
        some (.ok res, fm', evs) ∧
      res.destinationPath = some (pathJoin "/w"
        (ADJECTIVES.getD 2 "undefined" ++ "-" ++ NOUNS.getD 5 "undefined"))) ∧
    resolveDestination retryEnv "/w" none 1 =
      (some (pathJoin "/w" (candidateName retryEnv 2)),
       [.nextIntCall ADJECTIVES.length, .nextIntCall NOUNS.length,
        .existsCall (pathJoin "/w" (candidateName retryEnv 0)),
        .nextIntCall ADJECTIVES.length, .nextIntCall NOUNS.length,
        .existsCall (pathJoin "/w" (candidateName retryEnv 2))]) ∧
    (resolveDestination retryEnv "/w" none 1).2.countP
      (fun ev => ev.isExistsCall) = 2 :=
  ⟨C4_destination_resolution.1 freeEnv freeEnv "/w" none 1 rfl rfl,
   (C4_destination_resolution.2.1 draws25Env "/w" 1 (by decide) (by decide)
      (fun p => rfl)).1,
   (C4_destination_resolution.2.1 draws25Env "/w" 1 (by decide) (by decide)
      (fun p => rfl)).2 ⟨some "/w", ["a.txt"], ["a.txt"]⟩ rfl (by decide) rfl,
   (C4_destination_resolution.2.2 retryEnv "/w" 1 (by decide) (by decide)).1,
   (C4_destination_resolution.2.2 retryEnv "/w" 1 (by decide) (by decide)).2⟩

/-- C5: when all 10 random attempts collide, the base name generated on the
10th attempt (draws 18 and 19) is kept and suffixed `-1`, `-2`, …, the
counter growing by 1 per probe, and the first numbered path whose `exists`
answer is false is returned; the trace is the 10 attempts' draws and
checks followed by one existence probe per numbered candidate. -/
theorem C5_all_collide_numbering (env : Env) (cd : String) (fuel j : Nat)
    (hall : ∀ a ∈ List.range 10,
      env.explorer.«exists» (pathJoin cd (candidateName env (2 * a))) = true)
    (hnum : ∀ i ∈ List.range j,
      env.explorer.«exists»
        (pathJoin cd (candidateName env 18 ++ "-" ++ toString (1 + i))) = true)
    (hfree : env.explorer.«exists»
      (pathJoin cd (candidateName env 18 ++ "-" ++ toString (1 + j))) = false)
    (hfuel : j < fuel) :
    resolveDestination env cd none fuel =
      (some (pathJoin cd (candidateName env 18 ++ "-" ++ toString (1 + j))),
       attemptTrace env cd 0 10 ++
         probeTrace cd (candidateName env 18) 1 (j + 1)) := by
  have hall0 : ∀ a ∈ List.range 10,
      env.explorer.«exists»
        (pathJoin cd (candidateName env (0 + 2 * a))) = true := by
    intro a ha
    rw [Nat.zero_add]
    exact hall a ha
  have hra := randomAttempts_all_collide env cd 10 0 "" fuel hall0
  have hbase : (if (10 : Nat) = 0 then ""
      else candidateName env (0 + 2 * (10 - 1))) = candidateName env 18 := by
    norm_num
  rw [hbase] at hra
  have hnp := numberedProbe_free_spec env.explorer cd (candidateName env 18)
    j 1 fuel hnum hfree hfuel
  show randomAttempts env cd 0 "" 10 fuel = _
  rw [hra, hnp]

/-- C5 witness: every attempt yields `bleu-montagne`, which exists; the
first numbered candidate `bleu-montagne-1` is free and returned. -/
theorem C5_witness :
    resolveDestination collideEnv "/w" none 1 =
      (some (pathJoin "/w"
        (candidateName collideEnv 18 ++ "-" ++ toString (1 + 0))),
       attemptTrace collideEnv "/w" 0 10 ++
         probeTrace "/w" (candidateName collideEnv 18) 1 (0 + 1)) :=
  C5_all_collide_numbering collideEnv "/w" 1 0 (by decide) (by decide)
    (by decide) (by decide)
